import Mathlib

/-!
Verification of src/download_yolo.py against its specification.

The program is a sequential fetcher: for each entry of a fixed manifest
(filename, url, optional sha256 hex digest) it ensures a local file exists and
is verified, downloading as needed.  The model below embeds the program
shallowly: file contents are byte lists, the network is an oracle mapping a URL
to what one HTTP request delivers, and the filesystem state is a map from
filenames to optional contents.  SHA-256 is implemented concretely so that
digest comparisons evaluate on concrete inputs.
-/

/-! SHA-256 over byte lists, modelling Python's hashlib.sha256(...).hexdigest(). -/

def w32 (n : Nat) : Nat := n % 4294967296

def rotr (n x : Nat) : Nat := w32 ((x >>> n) ||| (x <<< (32 - n)))

def sig0 (x : Nat) : Nat := (rotr 7 x) ^^^ (rotr 18 x) ^^^ (x >>> 3)

def sig1 (x : Nat) : Nat := (rotr 17 x) ^^^ (rotr 19 x) ^^^ (x >>> 10)

def bigSig0 (x : Nat) : Nat := (rotr 2 x) ^^^ (rotr 13 x) ^^^ (rotr 22 x)

def bigSig1 (x : Nat) : Nat := (rotr 6 x) ^^^ (rotr 11 x) ^^^ (rotr 25 x)

/-- The 64 SHA-256 round constants, written in decimal. -/
def Kconst : List Nat :=
  [1116352408, 1899447441, 3049323471, 3921009573, 961987163, 1508970993,
   2453635748, 2870763221, 3624381080, 310598401, 607225278, 1426881987,
   1925078388, 2162078206, 2614888103, 3248222580, 3835390401, 4022224774,
   264347078, 604807628, 770255983, 1249150122, 1555081692, 1996064986,
   2554220882, 2821834349, 2952996808, 3210313671, 3336571891, 3584528711,
   113926993, 338241895, 666307205, 773529912, 1294757372, 1396182291,
   1695183700, 1986661051, 2177026350, 2456956037, 2730485921, 2820302411,
   3259730800, 3345764771, 3516065817, 3600352804, 4094571909, 275423344,
   430227734, 506948616, 659060556, 883997877, 958139571, 1322822218,
   1537002063, 1747873779, 1955562222, 2024104815, 2227730452, 2361852424,
   2428436474, 2756734187, 3204031479, 3329325298]

/-- The initial SHA-256 hash state, written in decimal. -/
def initH : List Nat :=
  [1779033703, 3144134277, 1013904242, 2773480762, 1359893119, 2600822924,
   528734635, 1541459225]

def padMsg (msg : List Nat) : List Nat :=
  let L := msg.length
  let k := (119 - L % 64) % 64
  msg ++ 0x80 :: (List.replicate k 0 ++ (List.range 8).map (fun i => ((8 * L) >>> ((7 - i) * 8)) % 256))

def toWords : List Nat → List Nat
  | a :: b :: c :: d :: rest => (((a * 256 + b) * 256 + c) * 256 + d) :: toWords rest
  | _ => []

def toBlocks : List Nat → List (List Nat)
  | w0 :: w1 :: w2 :: w3 :: w4 :: w5 :: w6 :: w7 :: w8 :: w9 :: w10 :: w11 :: w12 :: w13 :: w14 :: w15 :: rest =>
      [w0, w1, w2, w3, w4, w5, w6, w7, w8, w9, w10, w11, w12, w13, w14, w15] :: toBlocks rest
  | _ => []

def extendSched : Nat → List Nat → List Nat
  | 0, ws => ws
  | n + 1, ws =>
      let i := ws.length
      extendSched n
        (ws ++ [w32 (ws.getD (i - 16) 0 + sig0 (ws.getD (i - 15) 0) +
                     ws.getD (i - 7) 0 + sig1 (ws.getD (i - 2) 0))])

def compressStep (st : Nat × Nat × Nat × Nat × Nat × Nat × Nat × Nat) (wk : Nat × Nat) :
    Nat × Nat × Nat × Nat × Nat × Nat × Nat × Nat :=
  let a := st.1
  let b := st.2.1
  let c := st.2.2.1
  let d := st.2.2.2.1
  let e := st.2.2.2.2.1
  let f := st.2.2.2.2.2.1
  let g := st.2.2.2.2.2.2.1
  let h := st.2.2.2.2.2.2.2
  let t1 := w32 (h + bigSig1 e + ((e &&& f) ^^^ ((e ^^^ 0xffffffff) &&& g)) + wk.2 + wk.1)
  let t2 := w32 (bigSig0 a + ((a &&& b) ^^^ (a &&& c) ^^^ (b &&& c)))
  (w32 (t1 + t2), a, b, c, w32 (d + t1), e, f, g)

def compressBlock (H : List Nat) (block : List Nat) : List Nat :=
  let W := extendSched 48 block
  let st := (List.zip W Kconst).foldl compressStep
    (H.getD 0 0, H.getD 1 0, H.getD 2 0, H.getD 3 0,
     H.getD 4 0, H.getD 5 0, H.getD 6 0, H.getD 7 0)
  [w32 (H.getD 0 0 + st.1), w32 (H.getD 1 0 + st.2.1), w32 (H.getD 2 0 + st.2.2.1),
   w32 (H.getD 3 0 + st.2.2.2.1), w32 (H.getD 4 0 + st.2.2.2.2.1), w32 (H.getD 5 0 + st.2.2.2.2.2.1),
   w32 (H.getD 6 0 + st.2.2.2.2.2.2.1), w32 (H.getD 7 0 + st.2.2.2.2.2.2.2)]

def hexDigit (d : Nat) : Char := Char.ofNat (if d < 10 then 48 + d else 87 + d)

def toHex8 (w : Nat) : List Char := (List.range 8).map (fun i => hexDigit ((w >>> ((7 - i) * 4)) &&& 15))

def sha256hex (msg : List Nat) : String :=
  let blocks := toBlocks (toWords (padMsg msg))
  let Hf := blocks.foldl compressBlock initH
  String.mk (Hf.foldr (fun w acc => toHex8 w ++ acc) [])

/-! Model of src/download_yolo.py.  A file's bytes are a `List Nat`. -/

abbrev Content := List Nat

/-- Model of `verify_file_hash(file_path, expected_hash)` (lines 46-57); the model receives
the file's content rather than its path.  `None` skips verification; otherwise the SHA-256
hex digest of the content is compared with `expected_hash`. -/
def verify_file_hash (content : Content) (expected_hash : Option String) : Bool :=
  match expected_hash with
  | none => true
  | some h => sha256hex content == h

/-- Python truthiness of `if expected_hash:` for an `Optional[str]`:
false exactly for `None` and for the empty string. -/
def hashTruthy : Option String → Bool
  | none => false
  | some s => !(s == "")

/-- What one call to `opener.open` delivers, as seen by the `while` loop of
`download_file` (lines 84-96).  `connFail` : the request itself raises (HTTPError /
URLError / timeout) before `open(destination, 'wb')` runs.  `interrupted blocks` : the
connection opened (so `destination` was opened for writing) and `blocks` were read and
written before a network or filesystem error was raised.  `ok blocks` : the whole body
arrived as `blocks` (the successive returns of `response.read(8192)`). -/
inductive NetResp where
  | connFail
  | interrupted (blocks : List Content)
  | ok (blocks : List Content)

abbrev Net := String → NetResp

abbrev FS := String → Option Content

/-- Model of `report_progress(block_num, block_size, total_size)` (lines 65-74), returning
the byte count it displays: the code computes `downloaded = block_num * block_size` and
shows that number (in both the percent branch and the no-total branch). -/
def report_progress (block_num block_size total_size : Nat) : Nat :=
  block_num * block_size

/-- The progress values displayed by the `while` loop (lines 89-96): `block_num` is
incremented once per nonempty buffer and `report_progress` is called with the fixed
`block_size = 8192`. -/
def streamReports (total_size : Nat) : List Content → Nat → List Nat
  | [], _ => []
  | _ :: rest, block_num =>
      report_progress (block_num + 1) 8192 total_size :: streamReports total_size rest (block_num + 1)

/-- Result of one `download_file` call: its return value, the state of `destination`
afterwards, how many network requests were made, and the displayed progress byte
counts. -/
structure DLOutcome where
  success : Bool
  file : Option Content
  requests : Nat
  reports : List Nat
deriving DecidableEq

/-- Model of `download_file(url, destination, expected_hash)` (lines 60-122).
On `connFail` the destination is untouched and `False` is returned; the `except` arms at
lines 111-122 do NOT delete the file, so on `interrupted blocks` the partially written
file remains and `False` is returned.  On a complete transfer, verification runs only
when `expected_hash` is truthy; a mismatch deletes the file (`destination.unlink()`,
line 106) and returns `False`; otherwise `True` is returned. -/
def download_file (net : Net) (url : String) (fileBefore : Option Content)
    (expected_hash : Option String) : DLOutcome :=
  match net url with
  | .connFail => ⟨false, fileBefore, 1, []⟩
  | .interrupted blocks =>
      ⟨false, some (blocks.foldr (· ++ ·) []), 1, streamReports 0 blocks 0⟩
  | .ok blocks =>
      let content := blocks.foldr (· ++ ·) []
      let reports := streamReports 0 blocks 0
      if hashTruthy expected_hash then
        if verify_file_hash content expected_hash then ⟨true, some content, 1, reports⟩
        else ⟨false, none, 1, reports⟩
      else ⟨true, some content, 1, reports⟩

/-- One manifest entry: a key of `YOLO_FILES` together with its `url` and optional
`sha256` fields (lines 27-40). -/
structure Entry where
  filename : String
  url : String
  sha256 : Option String
deriving DecidableEq

/-- Fault injection for the two filesystem operations `main` performs on an existing
file OUTSIDE any `try` block: reading it for verification (line 157) and deleting it
(lines 163 and 170).  `ok` means both succeed. -/
inductive FsB where
  | ok
  | verifyRaises
  | unlinkRaises
deriving DecidableEq

/-- Does reading the existing file for verification raise an OSError? -/
def FsB.vRaises : FsB → Bool
  | .verifyRaises => true
  | _ => false

/-- Does `destination.unlink()` raise an OSError? -/
def FsB.uRaises : FsB → Bool
  | .unlinkRaises => true
  | _ => false

structure EntryOutcome where
  success : Bool
  file : Option Content
  requests : Nat
deriving DecidableEq

instance {α β : Type} [DecidableEq α] [DecidableEq β] : DecidableEq (Except α β)
  | Except.error x, Except.error y =>
      if h : x = y then isTrue (h ▸ rfl) else isFalse (fun hc => h (by cases hc; rfl))
  | Except.ok x, Except.ok y =>
      if h : x = y then isTrue (h ▸ rfl) else isFalse (fun hc => h (by cases hc; rfl))
  | Except.error _, Except.ok _ => isFalse (fun hc => Except.noConfusion hc)
  | Except.ok _, Except.error _ => isFalse (fun hc => Except.noConfusion hc)

/-- The tail of the loop body (lines 172-174): call `download_file`; at this point the
destination is always absent (it was never there, or was just unlinked). -/
def entryDownload (net : Net) (e : Entry) : Except Unit EntryOutcome :=
  let d := download_file net e.url none e.sha256
  Except.ok ⟨d.success, d.file, d.requests⟩

/-- One iteration of the `for` loop of `main` (lines 147-174) for entry `e`, given the
current content of its destination.  `Except.error ()` models an OSError raised outside
any `try` block, which aborts `main` altogether. -/
def processEntry (net : Net) (force : Bool) (fsb : FsB) (e : Entry)
    (file : Option Content) : Except Unit EntryOutcome :=
  match file, force with
  | some c, false =>
      if hashTruthy e.sha256 then
        if fsb.vRaises then Except.error ()
        else if verify_file_hash c e.sha256 then Except.ok ⟨true, some c, 0⟩
        else if fsb.uRaises then Except.error ()
        else entryDownload net e
      else Except.ok ⟨true, some c, 0⟩
  | some _, true =>
      if fsb.uRaises then Except.error ()
      else entryDownload net e
  | none, _ => entryDownload net e

structure RunSt where
  fs : FS
  successCount : Nat
  requests : Nat

def setFile (fs : FS) (name : String) (c : Option Content) : FS :=
  fun n => if n = name then c else fs n

/-- The `for` loop of `main` (lines 147-175): entries are processed in order and the
success counter is incremented on success; an uncaught OSError aborts the whole loop. -/
def mainLoop (net : Net) (force : Bool) : List (Entry × FsB) → RunSt → Except Unit RunSt
  | [], s => Except.ok s
  | (e, fsb) :: rest, s =>
      match processEntry net force fsb e (s.fs e.filename) with
      | Except.error u => Except.error u
      | Except.ok o =>
          mainLoop net force rest
            ⟨setFile s.fs e.filename o.file,
             s.successCount + (if o.success then 1 else 0),
             s.requests + o.requests⟩

structure MainResult where
  fs : FS
  successCount : Nat
  totalFiles : Nat
  requests : Nat
  summary : String
  exitCode : Nat

/-- Model of `main()` (lines 125-187), generalised over the manifest, the network
oracle, and the initial directory contents.  It returns the final directory state, the
counters, the summary line (line 179) and the value handed to `sys.exit` (lines
182-187). -/
def mainRun (net : Net) (force : Bool) (entries : List (Entry × FsB)) (fs0 : FS) :
    Except Unit MainResult :=
  match mainLoop net force entries ⟨fs0, 0, 0⟩ with
  | Except.error u => Except.error u
  | Except.ok s =>
      Except.ok
        { fs := s.fs
          successCount := s.successCount
          totalFiles := entries.length
          requests := s.requests
          summary := "Download Summary: " ++ toString s.successCount ++ "/" ++
                     toString entries.length ++ " files ready"
          exitCode := if s.successCount = entries.length then 0 else 1 }

/-- Every entry paired with well-behaved main-level filesystem operations. -/
def entriesOk (l : List Entry) : List (Entry × FsB) := l.map (fun e => (e, FsB.ok))

/-- The fixed manifest `YOLO_FILES` (lines 27-40). -/
def YOLO_FILES : List Entry :=
  [⟨"yolov3.cfg", "https://raw.githubusercontent.com/pjreddie/darknet/master/cfg/yolov3.cfg",
    some ("22489ea38575dfa36c67a90048e8759576416a79d32dc11e15d2217777b9a953")⟩,
   ⟨"yolov3.weights", "https://github.com/patrick013/Object-Detection---Yolov3/raw/master/model/yolov3.weights",
    some ("523e4e69e1d015393a1b0a441cef1d9c7659e3eb2d7e15f793f060a21b32f297")⟩,
   ⟨"coco.names", "https://raw.githubusercontent.com/pjreddie/darknet/master/data/coco.names",
    some ("634a1132eb33f8091d60f2c346ababe8b905ae08387037aed883953b7329af84")⟩]

set_option maxRecDepth 1000000

/-! Self-tests of the SHA-256 embedding against the standard test vectors. -/

/-- SHA-256 of the empty message matches the published digest. -/
theorem sha256hex_empty_vector :
    sha256hex [] = "e3b0c44298fc1c149afbf4c8996fb92427ae41e4649b934ca495991b7852b855" := by decide

/-- SHA-256 of "abc" matches the published digest. -/
theorem sha256hex_abc_vector :
    sha256hex [0x61, 0x62, 0x63] = "ba7816bf8f01cfea414140de5dae2223b00361a396177a9cb410ff61f20015ad" := by decide

/-! Helper lemmas. -/

@[simp] theorem vRaises_ok : FsB.ok.vRaises = false := rfl

@[simp] theorem uRaises_ok : FsB.ok.uRaises = false := rfl

@[simp] theorem vRaises_verify : FsB.verifyRaises.vRaises = true := rfl

@[simp] theorem uRaises_unlink : FsB.unlinkRaises.uRaises = true := rfl

theorem toHex8_length (w : Nat) : (toHex8 w).length = 8 := by
  simp [toHex8]

theorem hexChars_foldr_length (l : List Nat) :
    (l.foldr (fun w acc => toHex8 w ++ acc) []).length = 8 * l.length := by
  induction l with
  | nil => simp
  | cons w l ih => simp [List.length_append, toHex8_length, ih]; ring

theorem compressBlock_length (H b : List Nat) : (compressBlock H b).length = 8 := rfl

theorem foldl_compressBlock_length (bs : List (List Nat)) :
    ∀ H : List Nat, H.length = 8 → (bs.foldl compressBlock H).length = 8 := by
  induction bs with
  | nil => intro H h; simpa using h
  | cons b bs ih => intro H _; exact ih _ (compressBlock_length H b)

/-- The hex digest produced by `sha256hex` always has 64 characters, like the
`hexdigest()` of Python's hashlib.sha256. -/
theorem sha256hex_length (msg : Content) : (sha256hex msg).length = 64 := by
  show (String.mk (((toBlocks (toWords (padMsg msg))).foldl compressBlock initH).foldr
      (fun w acc => toHex8 w ++ acc) [])).length = 64
  rw [String.length_mk, hexChars_foldr_length,
    foldl_compressBlock_length _ initH rfl]

/-- A SHA-256 hex digest is never the empty string. -/
theorem sha256hex_ne_empty (msg : Content) : sha256hex msg ≠ "" := by
  intro h
  have hl := sha256hex_length msg
  rw [h] at hl
  exact absurd hl (by decide)

/-- A digest that some content actually hashes to is truthy (in particular nonempty). -/
theorem hashTruthy_of_verify (c : Content) (h : String)
    (hv : verify_file_hash c (some h) = true) : hashTruthy (some h) = true := by
  have heq : sha256hex c = h := by simpa [verify_file_hash] using hv
  subst heq
  simp [hashTruthy, sha256hex_ne_empty c]

/-- Every call of `download_file` performs exactly one network request. -/
theorem download_file_requests (net : Net) (url : String) (fb : Option Content)
    (eh : Option String) : (download_file net url fb eh).requests = 1 := by
  rcases hnu : net url with _ | blocks | blocks
  all_goals simp only [download_file, hnu]
  split
  · split <;> rfl
  · rfl

/-- The skip path of the pre-download check (lines 153-167): if the destination exists,
force is off, and verification either is skipped (non-truthy digest) or passes, the
entry succeeds with no network request and the file untouched. -/
theorem processEntry_skip (net : Net) (e : Entry) (c : Content)
    (h : hashTruthy e.sha256 = true → verify_file_hash c e.sha256 = true) :
    processEntry net false FsB.ok e (some c) = Except.ok ⟨true, some c, 0⟩ := by
  by_cases ht : hashTruthy e.sha256 = true
  · simp [processEntry, ht, h ht]
  · simp only [Bool.not_eq_true] at ht
    simp [processEntry, ht]

/-- With `--force` set, the outcome of an entry does not depend on the existing file at
all: the loop unconditionally unlinks (line 170) and downloads afresh. -/
theorem processEntry_force (net : Net) (e : Entry) (f : Option Content) :
    processEntry net true FsB.ok e f = entryDownload net e := by
  rcases f with _ | c <;> rfl

/-- With well-behaved main-level filesystem operations, `processEntry` never raises. -/
theorem processEntry_ok_ex (net : Net) (force : Bool) (e : Entry) (f : Option Content) :
    ∃ o, processEntry net force FsB.ok e f = Except.ok o := by
  rcases f with _ | c
  · exact ⟨_, rfl⟩
  · cases force
    · by_cases ht : hashTruthy e.sha256 = true
      · by_cases hv : verify_file_hash c e.sha256 = true
        · exact ⟨⟨true, some c, 0⟩, by simp [processEntry, ht, hv]⟩
        · refine ⟨⟨(download_file net e.url none e.sha256).success,
            (download_file net e.url none e.sha256).file,
            (download_file net e.url none e.sha256).requests⟩, ?_⟩
          simp [processEntry, ht, hv, entryDownload]
      · simp only [Bool.not_eq_true] at ht
        exact ⟨⟨true, some c, 0⟩, by simp [processEntry, ht]⟩
    · exact ⟨_, rfl⟩

/-- If `download_file` reports success then the destination holds some content and, when
the expected digest is truthy, that content verifies against it. -/
theorem entryDownload_post (net : Net) (e : Entry) (o : EntryOutcome)
    (hp : entryDownload net e = Except.ok o) (hs : o.success = true) :
    ∃ c, o.file = some c ∧
      (hashTruthy e.sha256 = true → verify_file_hash c e.sha256 = true) := by
  rcases hnu : net e.url with _ | blocks | blocks
  · simp [entryDownload, download_file, hnu] at hp
    rw [← hp] at hs
    simp at hs
  · simp [entryDownload, download_file, hnu] at hp
    rw [← hp] at hs
    simp at hs
  · by_cases ht : hashTruthy e.sha256 = true
    · by_cases hv : verify_file_hash (blocks.foldr (· ++ ·) []) e.sha256 = true
      · simp [entryDownload, download_file, hnu, ht, hv] at hp
        exact ⟨blocks.foldr (· ++ ·) [], by rw [← hp], fun _ => hv⟩
      · simp [entryDownload, download_file, hnu, ht, hv] at hp
        rw [← hp] at hs
        simp at hs
    · simp only [Bool.not_eq_true] at ht
      simp [entryDownload, download_file, hnu, ht] at hp
      exact ⟨blocks.foldr (· ++ ·) [], by rw [← hp], fun hc => by rw [ht] at hc; cases hc⟩

/-- If an entry ends in success then its destination holds some content and, when the
expected digest is truthy, that content verifies against it. -/
theorem processEntry_post (net : Net) (force : Bool) (fsb : FsB) (e : Entry)
    (f : Option Content) (o : EntryOutcome)
    (hp : processEntry net force fsb e f = Except.ok o) (hs : o.success = true) :
    ∃ c, o.file = some c ∧
      (hashTruthy e.sha256 = true → verify_file_hash c e.sha256 = true) := by
  rcases f with _ | c
  · exact entryDownload_post net e o hp hs
  · cases force
    · by_cases ht : hashTruthy e.sha256 = true
      · by_cases hf : fsb.vRaises = true
        · simp [processEntry, ht, hf] at hp
        · simp only [Bool.not_eq_true] at hf
          by_cases hv : verify_file_hash c e.sha256 = true
          · simp [processEntry, ht, hf, hv] at hp
            exact ⟨c, by rw [← hp], fun _ => hv⟩
          · by_cases hu : fsb.uRaises = true
            · simp [processEntry, ht, hf, hv, hu] at hp
            · simp only [Bool.not_eq_true] at hu
              simp [processEntry, ht, hf, hv, hu] at hp
              exact entryDownload_post net e o (by rw [← hp]) hs
      · simp only [Bool.not_eq_true] at ht
        simp [processEntry, ht] at hp
        exact ⟨c, by rw [← hp], fun hc => by rw [ht] at hc; cases hc⟩
    · by_cases hu : fsb.uRaises = true
      · simp [processEntry, hu] at hp
      · simp only [Bool.not_eq_true] at hu
        simp [processEntry, hu] at hp
        exact entryDownload_post net e o (by rw [← hp]) hs

theorem setFile_self (fs : FS) (k : String) (c : Option Content) (h : fs k = c) :
    setFile fs k c = fs := by
  funext n
  by_cases hn : n = k
  · subst hn
    simp [setFile, h.symm]
  · simp [setFile, hn]

theorem entriesOk_cons (e : Entry) (l : List Entry) :
    entriesOk (e :: l) = (e, FsB.ok) :: entriesOk l := rfl

theorem entriesOk_map_filename (l : List Entry) :
    (entriesOk l).map (fun p => p.1.filename) = l.map Entry.filename := by
  induction l with
  | nil => rfl
  | cons e l ih => simp [entriesOk_cons, ih]

theorem entriesOk_length (l : List Entry) : (entriesOk l).length = l.length := by
  simp [entriesOk]

/-- When no main-level filesystem operation raises, the loop runs to completion. -/
theorem mainLoop_ok (net : Net) (force : Bool) (l : List (Entry × FsB)) :
    ∀ s, (∀ p ∈ l, p.2 = FsB.ok) → ∃ r, mainLoop net force l s = Except.ok r := by
  induction l with
  | nil => exact fun s _ => ⟨s, rfl⟩
  | cons p l ih =>
      intro s hok
      obtain ⟨e, fsb⟩ := p
      have hfsb : fsb = FsB.ok := hok _ (List.mem_cons_self _ _)
      subst hfsb
      obtain ⟨o, ho⟩ := processEntry_ok_ex net force e (s.fs e.filename)
      obtain ⟨r, hr⟩ := ih ⟨setFile s.fs e.filename o.file,
        s.successCount + (if o.success then 1 else 0), s.requests + o.requests⟩
        (fun p hp => hok p (List.mem_cons_of_mem _ hp))
      exact ⟨r, by simpa [mainLoop, ho] using hr⟩

/-- The loop never touches a filename that no entry of the list carries. -/
theorem mainLoop_fs_frozen (net : Net) (force : Bool) (l : List (Entry × FsB)) :
    ∀ s r, mainLoop net force l s = Except.ok r →
      ∀ k, k ∉ l.map (fun p => p.1.filename) → r.fs k = s.fs k := by
  induction l with
  | nil =>
      intro s r h k _
      cases h
      rfl
  | cons p l ih =>
      intro s r h k hk
      obtain ⟨e, fsb⟩ := p
      rcases hpe : processEntry net force fsb e (s.fs e.filename) with u | o
      · rw [mainLoop, hpe] at h
        cases h
      · rw [mainLoop, hpe] at h
        have hk1 : k ≠ e.filename := by
          intro hke
          exact hk (by simp [hke])
        have hk2 : k ∉ l.map (fun p => p.1.filename) := by
          intro hm
          exact hk (by simp [hm])
        rw [ih _ _ h k hk2]
        simp [setFile, hk1]

/-- The success counter grows by at most one per entry. -/
theorem mainLoop_count_le (net : Net) (force : Bool) (l : List (Entry × FsB)) :
    ∀ s r, mainLoop net force l s = Except.ok r →
      r.successCount ≤ s.successCount + l.length := by
  induction l with
  | nil =>
      intro s r h
      cases h
      simp
  | cons p l ih =>
      intro s r h
      obtain ⟨e, fsb⟩ := p
      rcases hpe : processEntry net force fsb e (s.fs e.filename) with u | o
      · rw [mainLoop, hpe] at h
        cases h
      · rw [mainLoop, hpe] at h
        have hle : r.successCount ≤
            (s.successCount + (if o.success then 1 else 0)) + l.length := ih _ _ h
        have hone : (if o.success then (1 : Nat) else 0) ≤ 1 := by
          cases o.success <;> simp
        simp only [List.length_cons]
        omega

/-- If every listed entry already has a file that needs no re-download (its digest is
non-truthy, or it verifies), the loop succeeds on all of them, touching neither the
filesystem nor the network. -/
theorem mainLoop_skip_all (net : Net) (l : List Entry) :
    ∀ s : RunSt,
      (∀ e ∈ l, ∃ c, s.fs e.filename = some c ∧
        (hashTruthy e.sha256 = true → verify_file_hash c e.sha256 = true)) →
      mainLoop net false (entriesOk l) s =
        Except.ok ⟨s.fs, s.successCount + l.length, s.requests⟩ := by
  induction l with
  | nil => intro s _; simp [entriesOk, mainLoop]
  | cons e l ih =>
      intro s hinv
      obtain ⟨c, hc, hv⟩ := hinv e (List.mem_cons_self _ _)
      have hskip := processEntry_skip net e c hv
      have hset : setFile s.fs e.filename (some c) = s.fs := setFile_self _ _ _ hc
      have hstep : mainLoop net false (entriesOk (e :: l)) s =
          mainLoop net false (entriesOk l) ⟨s.fs, s.successCount + 1, s.requests⟩ := by
        rw [entriesOk_cons, mainLoop, hc, hskip]
        simp [hset]
      rw [hstep, ih ⟨s.fs, s.successCount + 1, s.requests⟩
        (fun e' he' => hinv e' (List.mem_cons_of_mem _ he'))]
      have harith : s.successCount + 1 + l.length = s.successCount + (e :: l).length := by
        simp [List.length_cons]
        omega
      rw [harith]

/-- If a run over `entriesOk l` ends with every entry counted as a success, then each
listed filename ends holding a content that passes its entry's verification whenever the
digest is truthy. -/
theorem mainLoop_all_success_post (net : Net) (l : List Entry) :
    ∀ s r, (l.map Entry.filename).Nodup →
      mainLoop net false (entriesOk l) s = Except.ok r →
      r.successCount = s.successCount + l.length →
      ∀ e ∈ l, ∃ c, r.fs e.filename = some c ∧
        (hashTruthy e.sha256 = true → verify_file_hash c e.sha256 = true) := by
  induction l with
  | nil => intro s r _ _ _ e he; cases he
  | cons e l ih =>
      intro s r hnd h hall e' he'
      rw [List.map_cons, List.nodup_cons] at hnd
      rcases hpe : processEntry net false FsB.ok e (s.fs e.filename) with u | o
      · rw [entriesOk_cons, mainLoop, hpe] at h
        cases h
      · rw [entriesOk_cons, mainLoop, hpe] at h
        have hle : r.successCount ≤
            ((s.successCount + (if o.success then 1 else 0)) + l.length) :=
          mainLoop_count_le net false (entriesOk l) _ _
            (by simpa [entriesOk_length] using h) |>.trans (by simp [entriesOk_length])
        have hsucc : o.success = true := by
          by_contra hns
          simp only [Bool.not_eq_true] at hns
          rw [hns] at hle
          simp at hle
          simp only [List.length_cons] at hall
          omega
        rcases List.mem_cons.mp he' with rfl | hmem
        · obtain ⟨c, hcf, hcv⟩ := processEntry_post net false FsB.ok e'
            (s.fs e'.filename) o hpe hsucc
          refine ⟨c, ?_, hcv⟩
          have hfro : r.fs e'.filename =
              (setFile s.fs e'.filename o.file) e'.filename := by
            have hnot : e'.filename ∉ (entriesOk l).map (fun p => p.1.filename) := by
              rw [entriesOk_map_filename]
              exact hnd.1
            exact mainLoop_fs_frozen net false (entriesOk l) _ _ h e'.filename hnot
          rw [hfro]
          simp [setFile, hcf]
        · have hall' : r.successCount =
              (s.successCount + (if o.success then 1 else 0)) + l.length := by
            rw [hsucc]
            simp only [List.length_cons] at hall
            simp
            omega
          exact ih _ _ hnd.2 h hall' e' hmem

/-- A forced run from an arbitrary directory behaves exactly like a plain run from a
directory in which none of the listed files exist: every entry is downloaded afresh, and
the two runs agree on success count, request count, and the final content of every
listed filename. -/
theorem mainLoop_force_fresh (net : Net) (l : List Entry) :
    ∀ s0 s1 : RunSt, (l.map Entry.filename).Nodup →
      (∀ e ∈ l, s1.fs e.filename = none) →
      s0.successCount = s1.successCount → s0.requests = s1.requests →
      ∃ r0 r1, mainLoop net true (entriesOk l) s0 = Except.ok r0 ∧
        mainLoop net false (entriesOk l) s1 = Except.ok r1 ∧
        r0.successCount = r1.successCount ∧ r0.requests = r1.requests ∧
        ∀ e ∈ l, r0.fs e.filename = r1.fs e.filename := by
  induction l with
  | nil =>
      intro s0 s1 _ _ hc hq
      exact ⟨s0, s1, rfl, rfl, hc, hq, fun e he => absurd he (List.not_mem_nil e)⟩
  | cons e l ih =>
      intro s0 s1 hnd hfresh hc hq
      rw [List.map_cons, List.nodup_cons] at hnd
      have h0 : processEntry net true FsB.ok e (s0.fs e.filename) =
          Except.ok (⟨(download_file net e.url none e.sha256).success,
            (download_file net e.url none e.sha256).file,
            (download_file net e.url none e.sha256).requests⟩ : EntryOutcome) :=
        processEntry_force net e _
      have h1 : processEntry net false FsB.ok e (s1.fs e.filename) =
          Except.ok (⟨(download_file net e.url none e.sha256).success,
            (download_file net e.url none e.sha256).file,
            (download_file net e.url none e.sha256).requests⟩ : EntryOutcome) := by
        rw [hfresh e (List.mem_cons_self _ _)]
        rfl
      have hstep0 : mainLoop net true (entriesOk (e :: l)) s0 =
          mainLoop net true (entriesOk l)
            ⟨setFile s0.fs e.filename (download_file net e.url none e.sha256).file,
             s0.successCount +
               (if (download_file net e.url none e.sha256).success then 1 else 0),
             s0.requests + (download_file net e.url none e.sha256).requests⟩ := by
        rw [entriesOk_cons, mainLoop, h0]
      have hstep1 : mainLoop net false (entriesOk (e :: l)) s1 =
          mainLoop net false (entriesOk l)
            ⟨setFile s1.fs e.filename (download_file net e.url none e.sha256).file,
             s1.successCount +
               (if (download_file net e.url none e.sha256).success then 1 else 0),
             s1.requests + (download_file net e.url none e.sha256).requests⟩ := by
        rw [entriesOk_cons, mainLoop, h1]
      have hfresh' : ∀ e' ∈ l,
          (setFile s1.fs e.filename (download_file net e.url none e.sha256).file)
            e'.filename = none := by
        intro e' he'
        have hne : e'.filename ≠ e.filename := by
          intro hh
          exact hnd.1 (hh ▸ List.mem_map_of_mem Entry.filename he')
        simp [setFile, hne, hfresh e' (List.mem_cons_of_mem _ he')]
      obtain ⟨r0, r1, hr0, hr1, hcc, hqq, hfs⟩ := ih
        ⟨setFile s0.fs e.filename (download_file net e.url none e.sha256).file,
         s0.successCount +
           (if (download_file net e.url none e.sha256).success then 1 else 0),
         s0.requests + (download_file net e.url none e.sha256).requests⟩
        ⟨setFile s1.fs e.filename (download_file net e.url none e.sha256).file,
         s1.successCount +
           (if (download_file net e.url none e.sha256).success then 1 else 0),
         s1.requests + (download_file net e.url none e.sha256).requests⟩
        hnd.2 hfresh' (by simp [hc]) (by simp [hq])
      refine ⟨r0, r1, by rw [hstep0]; exact hr0, by rw [hstep1]; exact hr1, hcc, hqq, ?_⟩
      intro e' he'
      rcases List.mem_cons.mp he' with rfl | hmem
      · have hn0 : e'.filename ∉ (entriesOk l).map (fun p => p.1.filename) := by
          rw [entriesOk_map_filename]
          exact hnd.1
        have hf0 := mainLoop_fs_frozen net true (entriesOk l) _ _ hr0 e'.filename hn0
        have hf1 := mainLoop_fs_frozen net false (entriesOk l) _ _ hr1 e'.filename hn0
        rw [hf0, hf1]
        simp [setFile]
      · exact hfs e' hmem

/-! Claim theorems. -/

/-- C1 counterexample: an error in the middle of the transfer (after one 3-byte block was
written) makes `download_file` return failure, but the partial file REMAINS at the
destination — the claim's "no partial file exists at the destination path" is false. -/
theorem C1_counterexample :
    (download_file (fun _ => NetResp.interrupted [[1, 2, 3]]) ("u") none (some ("h"))).success
        = false ∧
    (download_file (fun _ => NetResp.interrupted [[1, 2, 3]]) ("u") none (some ("h"))).file
        = some [1, 2, 3] := by
  exact ⟨rfl, by simp [download_file]⟩

/-- C1 (amended): if a network, protocol, or filesystem error interrupts the transfer,
the entry is reported as failed and processing of the remaining entries continues, but
the partial file is NOT deleted: it remains at the destination path. -/
theorem C1_failed_entry_keeps_partial_file (net : Net) (force : Bool) (e : Entry)
    (blocks : List Content) (rest : List (Entry × FsB)) (s : RunSt)
    (hnet : net e.url = NetResp.interrupted blocks)
    (habs : s.fs e.filename = none) :
    (download_file net e.url none e.sha256).success = false ∧
    (download_file net e.url none e.sha256).file = some (blocks.foldr (· ++ ·) []) ∧
    mainLoop net force ((e, FsB.ok) :: rest) s =
      mainLoop net force rest
        ⟨setFile s.fs e.filename (some (blocks.foldr (· ++ ·) [])),
         s.successCount, s.requests + 1⟩ := by
  have hdl : download_file net e.url none e.sha256 =
      ⟨false, some (blocks.foldr (· ++ ·) []), 1, streamReports 0 blocks 0⟩ := by
    simp only [download_file, hnet]
  have hpe : processEntry net force FsB.ok e none =
      Except.ok ⟨false, some (blocks.foldr (· ++ ·) []), 1⟩ := by
    show entryDownload net e = _
    simp [entryDownload, hdl]
  refine ⟨by simp [hdl], by simp [hdl], ?_⟩
  rw [mainLoop, habs, hpe]
  simp

/-- C1 witness: concrete instance of the amended claim. -/
theorem C1_witness :
    (download_file (fun _ => NetResp.interrupted [[5]]) ("u") none none).success = false ∧
    (download_file (fun _ => NetResp.interrupted [[5]]) ("u") none none).file = some [5] ∧
    mainLoop (fun _ => NetResp.interrupted [[5]]) false
        [(⟨"a", "u", none⟩, FsB.ok)] ⟨fun _ => none, 0, 0⟩ =
      mainLoop (fun _ => NetResp.interrupted [[5]]) false []
        ⟨setFile (fun _ => none) ("a") (some [5]), 0, 0 + 1⟩ :=
  C1_failed_entry_keeps_partial_file (fun _ => NetResp.interrupted [[5]]) false
    ⟨"a", "u", none⟩ [[5]] [] ⟨fun _ => none, 0, 0⟩ rfl rfl

/-- C2 counterexample: with the empty string as expected digest, the transfer completes,
the recomputed digest differs from the expected one, yet `download_file` keeps the file
and reports success — the claim's deletion-on-mismatch is false for this digest. -/
theorem C2_counterexample :
    sha256hex [1] ≠ "" ∧
    (download_file (fun _ => NetResp.ok [[1]]) ("u") none (some (""))).success = true ∧
    (download_file (fun _ => NetResp.ok [[1]]) ("u") none (some (""))).file = some [1] := by
  refine ⟨sha256hex_ne_empty [1], rfl, by simp [download_file, hashTruthy]⟩

/-- C2 (amended): for every entry with a NON-EMPTY expected digest, if the transfer
completes and the recomputed digest differs, the just-written file is deleted and failure
returned; on a match, or when no digest was supplied, success is returned and the
downloaded content is kept. -/
theorem C2_mismatch_deletes_match_succeeds (net : Net) (url : String) (fb : Option Content)
    (h : String) (blocks : List Content)
    (hnet : net url = NetResp.ok blocks) (hne : h ≠ "") :
    (sha256hex (blocks.foldr (· ++ ·) []) ≠ h →
      (download_file net url fb (some h)).success = false ∧
      (download_file net url fb (some h)).file = none) ∧
    (sha256hex (blocks.foldr (· ++ ·) []) = h →
      (download_file net url fb (some h)).success = true ∧
      (download_file net url fb (some h)).file = some (blocks.foldr (· ++ ·) [])) ∧
    ((download_file net url fb none).success = true ∧
     (download_file net url fb none).file = some (blocks.foldr (· ++ ·) [])) := by
  have ht : hashTruthy (some h) = true := by simp [hashTruthy, hne]
  refine ⟨fun hmm => ?_, fun hmm => ?_, ?_⟩
  · have hv : verify_file_hash (blocks.foldr (· ++ ·) []) (some h) = false := by
      simp [verify_file_hash, hmm]
    constructor <;> simp [download_file, hnet, ht, hv]
  · have hv : verify_file_hash (blocks.foldr (· ++ ·) []) (some h) = true := by
      simp [verify_file_hash, hmm]
    constructor <;> simp [download_file, hnet, ht, hv]
  · constructor <;> simp [download_file, hnet, hashTruthy]

/-- C2 witness: concrete instance of the amended claim. -/
theorem C2_witness :
    (sha256hex [1] ≠ "00" →
      (download_file (fun _ => NetResp.ok [[1]]) ("u") none (some ("00"))).success = false ∧
      (download_file (fun _ => NetResp.ok [[1]]) ("u") none (some ("00"))).file = none) ∧
    (sha256hex [1] = "00" →
      (download_file (fun _ => NetResp.ok [[1]]) ("u") none (some ("00"))).success = true ∧
      (download_file (fun _ => NetResp.ok [[1]]) ("u") none (some ("00"))).file = some [1]) ∧
    ((download_file (fun _ => NetResp.ok [[1]]) ("u") none none).success = true ∧
     (download_file (fun _ => NetResp.ok [[1]]) ("u") none none).file = some [1]) :=
  C2_mismatch_deletes_match_succeeds (fun _ => NetResp.ok [[1]]) ("u") none ("00") [[1]]
    rfl (by decide)

/-- C3: if the destination file is present, force is off, and its content verifies
against the entry's expected digest (which includes the case of no digest at all, where
`verify_file_hash` returns true unconditionally), the entry succeeds with zero network
requests and the file untouched. -/
theorem C3_present_valid_no_network (net : Net) (e : Entry) (c : Content)
    (hver : verify_file_hash c e.sha256 = true) :
    processEntry net false FsB.ok e (some c) = Except.ok ⟨true, some c, 0⟩ :=
  processEntry_skip net e c (fun _ => hver)

/-- C3 witness: the empty file against its real SHA-256 digest, with a network oracle
that would fail if it were ever consulted. -/
theorem C3_witness :
    processEntry (fun _ => NetResp.connFail) false FsB.ok
      ⟨"f", "u", some ("e3b0c44298fc1c149afbf4c8996fb92427ae41e4649b934ca495991b7852b855")⟩
      (some []) = Except.ok ⟨true, some [], 0⟩ :=
  C3_present_valid_no_network (fun _ => NetResp.connFail)
    ⟨"f", "u", some ("e3b0c44298fc1c149afbf4c8996fb92427ae41e4649b934ca495991b7852b855")⟩
    [] (by decide)

/-- C4 counterexample: an existing file whose digest does NOT match the expected digest
(the empty string matches no file), with force off — yet the code deletes nothing and
performs zero network requests, counting mere existence as success. -/
theorem C4_counterexample :
    verify_file_hash [1] (some ("")) = false ∧
    processEntry (fun _ => NetResp.connFail) false FsB.ok
      ⟨"a", "u", some ("")⟩ (some [1]) = Except.ok ⟨true, some [1], 0⟩ := by
  refine ⟨?_, rfl⟩
  simp [verify_file_hash, sha256hex_ne_empty [1]]

/-- C4 (amended): for every entry with a NON-EMPTY expected digest whose present file
fails verification, with force off, the stale file is deleted and exactly one network
request is performed to re-download it. -/
theorem C4_stale_file_redownloaded (net : Net) (e : Entry) (c : Content) (d : String)
    (hd : e.sha256 = some d) (hne : d ≠ "")
    (hver : verify_file_hash c e.sha256 = false) :
    processEntry net false FsB.ok e (some c) =
      Except.ok ⟨(download_file net e.url none e.sha256).success,
                 (download_file net e.url none e.sha256).file,
                 (download_file net e.url none e.sha256).requests⟩ ∧
    (download_file net e.url none e.sha256).requests = 1 := by
  have ht : hashTruthy e.sha256 = true := by
    rw [hd]
    simp [hashTruthy, hne]
  constructor
  · simp [processEntry, ht, hver, entryDownload]
  · exact download_file_requests net e.url none e.sha256

/-- C4 witness: concrete instance of the amended claim. -/
theorem C4_witness :
    processEntry (fun _ => NetResp.connFail) false FsB.ok
        ⟨"a", "u", some ("00")⟩ (some []) =
      Except.ok ⟨(download_file (fun _ => NetResp.connFail) ("u") none (some ("00"))).success,
                 (download_file (fun _ => NetResp.connFail) ("u") none (some ("00"))).file,
                 (download_file (fun _ => NetResp.connFail) ("u") none (some ("00"))).requests⟩ ∧
    (download_file (fun _ => NetResp.connFail) ("u") none (some ("00"))).requests = 1 :=
  C4_stale_file_redownloaded (fun _ => NetResp.connFail) ⟨"a", "u", some ("00")⟩ []
    ("00") rfl (by decide) (by decide)

/-- C5: whenever the loop completes (no uncaught main-level filesystem error), the run
emits the summary line `Download Summary: <success_count>/<total_files> files ready` and
exits 0 iff the success count equals the number of manifest entries; on the empty
manifest the summary is `0/0` and the exit code is 0. -/
theorem C5_summary_and_exit_code (net : Net) (force : Bool)
    (entries : List (Entry × FsB)) (fs0 : FS)
    (hok : ∀ p ∈ entries, p.2 = FsB.ok) :
    (∃ r, mainRun net force entries fs0 = Except.ok r ∧
      r.totalFiles = entries.length ∧
      r.summary = "Download Summary: " ++ toString r.successCount ++ "/" ++
        toString r.totalFiles ++ " files ready" ∧
      (r.exitCode = 0 ↔ r.successCount = r.totalFiles)) ∧
    mainRun net force [] fs0 =
      Except.ok ⟨fs0, 0, 0, 0, "Download Summary: 0/0 files ready", 0⟩ := by
  constructor
  · obtain ⟨s, hs⟩ := mainLoop_ok net force entries ⟨fs0, 0, 0⟩ hok
    refine ⟨{ fs := s.fs, successCount := s.successCount, totalFiles := entries.length,
              requests := s.requests,
              summary := "Download Summary: " ++ toString s.successCount ++ "/" ++
                toString entries.length ++ " files ready",
              exitCode := if s.successCount = entries.length then 0 else 1 },
            ?_, rfl, rfl, ?_⟩
    · rw [mainRun, hs]
    · by_cases h : s.successCount = entries.length <;> simp [h]
  · have hstr : "Download Summary: " ++ toString (0 : Nat) ++ "/" ++
        toString (0 : Nat) ++ " files ready" = "Download Summary: 0/0 files ready" := by
      decide
    simp [mainRun, mainLoop, hstr]

/-- C5 witness: concrete instance with a one-entry manifest. -/
theorem C5_witness :
    (∃ r, mainRun (fun _ => NetResp.ok [[1]]) false
        [(⟨"a", "u", none⟩, FsB.ok)] (fun _ => none) = Except.ok r ∧
      r.totalFiles = [(((⟨"a", "u", none⟩ : Entry), FsB.ok))].length ∧
      r.summary = "Download Summary: " ++ toString r.successCount ++ "/" ++
        toString r.totalFiles ++ " files ready" ∧
      (r.exitCode = 0 ↔ r.successCount = r.totalFiles)) ∧
    mainRun (fun _ => NetResp.ok [[1]]) false [] (fun _ => none) =
      Except.ok ⟨fun _ => none, 0, 0, 0, "Download Summary: 0/0 files ready", 0⟩ :=
  C5_summary_and_exit_code (fun _ => NetResp.ok [[1]]) false
    [(⟨"a", "u", none⟩, FsB.ok)] (fun _ => none) (by simp)

/-- C6 counterexample: the first entry's stale file deletion (`--force` path, line 170)
raises an OSError outside any `try`; the whole run aborts with the error instead of
moving on to the second entry, while the identical run with a well-behaved filesystem
completes — errors while deleting a file are NOT caught at the per-entry level. -/
theorem C6_counterexample :
    mainRun (fun _ => NetResp.ok [[1]]) true
      [(⟨"a", "u", none⟩, FsB.unlinkRaises), (⟨"b", "v", none⟩, FsB.ok)]
      (fun _ => some [9]) = Except.error () ∧
    ∃ r, mainRun (fun _ => NetResp.ok [[1]]) true
      [(⟨"a", "u", none⟩, FsB.ok), (⟨"b", "v", none⟩, FsB.ok)]
      (fun _ => some [9]) = Except.ok r :=
  ⟨rfl, ⟨_, rfl⟩⟩

/-- C6 (amended): errors raised inside `download_file` are caught there and turned into
a failed outcome for that entry only, so the loop always continues past an entry with
well-behaved main-level filesystem operations; but an OSError raised in `main` itself —
from `destination.unlink()` (stale or forced file) or from reading an existing file for
verification — is not caught and aborts the remaining entries. -/
theorem C6_fs_errors_abort_run (net : Net) (force : Bool) (e : Entry)
    (rest : List (Entry × FsB)) (s : RunSt) (c : Content) :
    (∃ s', mainLoop net force ((e, FsB.ok) :: rest) s = mainLoop net force rest s') ∧
    (s.fs e.filename = some c →
      mainLoop net true ((e, FsB.unlinkRaises) :: rest) s = Except.error ()) ∧
    (s.fs e.filename = some c → hashTruthy e.sha256 = true →
      mainLoop net false ((e, FsB.verifyRaises) :: rest) s = Except.error ()) := by
  refine ⟨?_, fun hf => ?_, fun hf ht => ?_⟩
  · obtain ⟨o, ho⟩ := processEntry_ok_ex net force e (s.fs e.filename)
    exact ⟨_, by rw [mainLoop, ho]⟩
  · rw [mainLoop, hf]
    rfl
  · rw [mainLoop, hf]
    have hpe : processEntry net false FsB.verifyRaises e (some c) = Except.error () := by
      simp [processEntry, ht]
    rw [hpe]

/-- C6 witness: concrete instance of the amended claim. -/
theorem C6_witness :
    (∃ s', mainLoop (fun _ => NetResp.connFail) false
        [(⟨"a", "u", some ("aa")⟩, FsB.ok)] ⟨fun _ => some [1], 0, 0⟩ =
      mainLoop (fun _ => NetResp.connFail) false [] s') ∧
    ((fun _ => some [1] : FS) ("a") = some [1] →
      mainLoop (fun _ => NetResp.connFail) true
        [(⟨"a", "u", some ("aa")⟩, FsB.unlinkRaises)] ⟨fun _ => some [1], 0, 0⟩ =
      Except.error ()) ∧
    ((fun _ => some [1] : FS) ("a") = some [1] →
      hashTruthy (some ("aa")) = true →
      mainLoop (fun _ => NetResp.connFail) false
        [(⟨"a", "u", some ("aa")⟩, FsB.verifyRaises)] ⟨fun _ => some [1], 0, 0⟩ =
      Except.error ()) :=
  C6_fs_errors_abort_run (fun _ => NetResp.connFail) false ⟨"a", "u", some ("aa")⟩ []
    ⟨fun _ => some [1], 0, 0⟩ [1]

/-- C7: with `--force`, an existing file is deleted unconditionally — the outcome of an
entry is identical whether the file was present (with any content, never verified) or
absent — and a forced run from any directory state ends with the same success count,
the same number of network requests, and the same content at every manifest filename as
a plain run from a directory where none of the manifest files exist. -/
theorem C7_force_equals_fresh_run (net : Net) (entries : List Entry)
    (fs0 fsF : FS) (e : Entry) (c : Content)
    (hnd : (entries.map Entry.filename).Nodup)
    (hfresh : ∀ e' ∈ entries, fsF e'.filename = none) :
    processEntry net true FsB.ok e (some c) = processEntry net true FsB.ok e none ∧
    ∃ r0 r1, mainRun net true (entriesOk entries) fs0 = Except.ok r0 ∧
      mainRun net false (entriesOk entries) fsF = Except.ok r1 ∧
      r0.successCount = r1.successCount ∧ r0.requests = r1.requests ∧
      ∀ e' ∈ entries, r0.fs e'.filename = r1.fs e'.filename := by
  constructor
  · rw [processEntry_force net e (some c), processEntry_force net e none]
  · obtain ⟨r0, r1, h0, h1, hcc, hqq, hfs⟩ := mainLoop_force_fresh net entries
      ⟨fs0, 0, 0⟩ ⟨fsF, 0, 0⟩ hnd hfresh rfl rfl
    refine ⟨{ fs := r0.fs, successCount := r0.successCount,
              totalFiles := (entriesOk entries).length, requests := r0.requests,
              summary := "Download Summary: " ++ toString r0.successCount ++ "/" ++
                toString (entriesOk entries).length ++ " files ready",
              exitCode := if r0.successCount = (entriesOk entries).length then 0 else 1 },
            { fs := r1.fs, successCount := r1.successCount,
              totalFiles := (entriesOk entries).length, requests := r1.requests,
              summary := "Download Summary: " ++ toString r1.successCount ++ "/" ++
                toString (entriesOk entries).length ++ " files ready",
              exitCode := if r1.successCount = (entriesOk entries).length then 0 else 1 },
            ?_, ?_, hcc, hqq, hfs⟩
    · rw [mainRun, h0]
    · rw [mainRun, h1]

/-- C7 witness: concrete instance — a forced run over a present file and a plain run
over an empty directory. -/
theorem C7_witness :
    processEntry (fun _ => NetResp.ok [[2]]) true FsB.ok ⟨"x", "y", none⟩ (some [1]) =
      processEntry (fun _ => NetResp.ok [[2]]) true FsB.ok ⟨"x", "y", none⟩ none ∧
    ∃ r0 r1, mainRun (fun _ => NetResp.ok [[2]]) true (entriesOk [⟨"a", "u", none⟩])
        (fun _ => some [7]) = Except.ok r0 ∧
      mainRun (fun _ => NetResp.ok [[2]]) false (entriesOk [⟨"a", "u", none⟩])
        (fun _ => none) = Except.ok r1 ∧
      r0.successCount = r1.successCount ∧ r0.requests = r1.requests ∧
      ∀ e' ∈ [(⟨"a", "u", none⟩ : Entry)], r0.fs e'.filename = r1.fs e'.filename :=
  C7_force_equals_fresh_run (fun _ => NetResp.ok [[2]]) [⟨"a", "u", none⟩]
    (fun _ => some [7]) (fun _ => none) ⟨"x", "y", none⟩ [1]
    (by simp) (fun e' _ => rfl)

/-- C8: if a run with force off succeeded on every entry, then a second run over the
same manifest from the directory state the first run left behind performs zero network
requests, leaves every file unchanged, succeeds on every entry again, and exits 0. -/
theorem C8_second_run_no_network (net : Net) (entries : List Entry) (fs0 : FS)
    (r1 : MainResult)
    (hnd : (entries.map Entry.filename).Nodup)
    (hrun : mainRun net false (entriesOk entries) fs0 = Except.ok r1)
    (hall : r1.successCount = entries.length) :
    ∃ r2, mainRun net false (entriesOk entries) r1.fs = Except.ok r2 ∧
      r2.fs = r1.fs ∧ r2.requests = 0 ∧
      r2.successCount = entries.length ∧ r2.exitCode = 0 := by
  rcases hml : mainLoop net false (entriesOk entries) ⟨fs0, 0, 0⟩ with u | s
  · rw [mainRun, hml] at hrun
    cases hrun
  · rw [mainRun, hml] at hrun
    injection hrun with h
    have hfs : r1.fs = s.fs := by rw [← h]
    have hsc : r1.successCount = s.successCount := by rw [← h]
    have hcnt : s.successCount = entries.length := by rw [← hsc, hall]
    have hinv := mainLoop_all_success_post net entries ⟨fs0, 0, 0⟩ s hnd hml
      (by simpa using hcnt)
    have hskip := mainLoop_skip_all net entries ⟨s.fs, 0, 0⟩ hinv
    rw [hfs]
    refine ⟨{ fs := s.fs, successCount := 0 + entries.length,
              totalFiles := (entriesOk entries).length, requests := 0,
              summary := "Download Summary: " ++ toString (0 + entries.length) ++ "/" ++
                toString (entriesOk entries).length ++ " files ready",
              exitCode := if 0 + entries.length = (entriesOk entries).length
                then 0 else 1 },
            ?_, rfl, rfl, by simp, ?_⟩
    · rw [mainRun, hskip]
    · simp [entriesOk_length]

/-- C8 witness: concrete instance — a one-entry manifest downloaded successfully once,
then re-run. -/
theorem C8_witness :
    ∃ r2, mainRun (fun _ => NetResp.ok [[1]]) false (entriesOk [⟨"a", "u", none⟩])
        (setFile (fun _ => none) ("a") (some [1])) = Except.ok r2 ∧
      r2.fs = setFile (fun _ => none) ("a") (some [1]) ∧
      r2.requests = 0 ∧ r2.successCount = 1 ∧ r2.exitCode = 0 :=
  C8_second_run_no_network (fun _ => NetResp.ok [[1]]) [⟨"a", "u", none⟩]
    (fun _ => none) _ (by simp) rfl rfl

/-- C9: the claim is right and the code is wrong.  After the first (and only) block of a
100-byte transfer, the displayed byte count is `block_num * block_size = 8192`, not the
100 bytes actually transferred: `report_progress` ignores the loop's true
`downloaded` accumulator. -/
theorem C9_progress_overstates_short_block :
    (download_file (fun _ => NetResp.ok [List.replicate 100 0]) ("u") none none).reports
        = [8192] ∧
    (download_file (fun _ => NetResp.ok [List.replicate 100 0]) ("u") none none).file
        = some (List.replicate 100 0) ∧
    ([List.replicate 100 0].map List.length).sum = 100 ∧
    report_progress 1 8192 0 = 8192 := by
  refine ⟨rfl, by simp [download_file, hashTruthy], by simp, rfl⟩

/-- C10: an empty-string expected digest is falsy in Python, so `download_file` skips
post-transfer verification and succeeds on any content, and the pre-download check in
`main` counts mere existence as success with zero requests — even though
`verify_file_hash` itself returns false for the empty-string digest on every file. -/
theorem C10_empty_digest_skips_verification (net : Net) (u : String) (fb : Option Content)
    (blocks : List Content) (e : Entry) (c : Content)
    (hnet : net u = NetResp.ok blocks) (hsha : e.sha256 = some ("")) :
    (download_file net u fb (some (""))).success = true ∧
    (download_file net u fb (some (""))).file = some (blocks.foldr (· ++ ·) []) ∧
    processEntry net false FsB.ok e (some c) = Except.ok ⟨true, some c, 0⟩ ∧
    verify_file_hash c (some ("")) = false := by
  refine ⟨?_, ?_, ?_, ?_⟩
  · simp [download_file, hnet, hashTruthy]
  · simp [download_file, hnet, hashTruthy]
  · refine processEntry_skip net e c (fun ht => ?_)
    rw [hsha] at ht
    simp [hashTruthy] at ht
  · simp [verify_file_hash, sha256hex_ne_empty c]

/-- C10 witness: concrete instance. -/
theorem C10_witness :
    (download_file (fun _ => NetResp.ok [[1, 2]]) ("u") none (some (""))).success = true ∧
    (download_file (fun _ => NetResp.ok [[1, 2]]) ("u") none (some (""))).file
        = some [1, 2] ∧
    processEntry (fun _ => NetResp.ok [[1, 2]]) false FsB.ok
      ⟨"a", "u", some ("")⟩ (some [3]) = Except.ok ⟨true, some [3], 0⟩ ∧
    verify_file_hash [3] (some ("")) = false :=
  C10_empty_digest_skips_verification (fun _ => NetResp.ok [[1, 2]]) ("u") none
    [[1, 2]] ⟨"a", "u", some ("")⟩ [3] rfl rfl
